import Mathlib

/-!
A shallow embedding of the core of the `gorss` feed reader and proofs about
it.  The embedding covers:

* `config.Feed` and `feed.Article` (src/config/config.go, src/feed/feed.go);
* the article-cache codec and the `loadCache` / `saveCache` /
  `NewFeedManager` operations of `feed.FeedManager`, over an explicit
  file-system state (`FS`);
* `feed.FeedManager.RefreshFeeds`, with the nondeterministic completion
  order of the fetch goroutines made explicit as a parameter;
* `feed.FeedManager.fetchFeed`'s item-to-article conversion;
* `llm.AskOllamaStreaming` (src/llm/ollama.go), with the network modelled
  as an environment and the delivery channel as the list of messages the
  producer goroutine emits before closing;
* the streaming-related parts of `ui.Model.Update` (src/ui/app.go) inside a
  small operational model of the bubbletea runtime (channels, pending read
  commands, the background drain goroutine).

Go machine integers do not matter here: all numeric fields are far from
overflow in every statement below, so they are modelled as `Int` / `Nat`.
`time.Time` values are modelled as integer timestamps.
-/

namespace Gorss

/-- `config.Feed` (src/config/config.go): an RSS feed configuration with a
display name and a locator. -/
structure Feed where
  Name : String
  URL : String
deriving DecidableEq, Repr

/-- `feed.Article` (src/feed/feed.go): a single RSS article.  `Published`
(a Go `time.Time`) is modelled as an integer timestamp. -/
structure Article where
  Title : String
  Description : String
  Content : String
  Link : String
  Published : Int
  FeedName : String
deriving DecidableEq, Repr

/-- A JSON value: the image of `encoding/json` marshalling.  `Published`
is serialized by the `time.Time` codec, modelled here as a number. -/
inductive Json where
  | str (s : String)
  | num (n : Int)
  | arr (elems : List Json)
  | obj (fields : List (String × Json))
  | null

/-- `json.MarshalIndent` of one `feed.Article`: a JSON object with the six
exported field names. -/
def encodeArticle (a : Article) : Json :=
  Json.obj [("Title", Json.str a.Title), ("Description", Json.str a.Description),
    ("Content", Json.str a.Content), ("Link", Json.str a.Link),
    ("Published", Json.num a.Published), ("FeedName", Json.str a.FeedName)]

/-- `json.MarshalIndent` of an article slice. -/
def encodeArticles (articles : List Article) : Json :=
  Json.arr (articles.map encodeArticle)

/-- Key lookup inside a JSON object, as `json.Unmarshal` resolves struct
field names. -/
def lookupField : List (String × Json) → String → Option Json
  | [], _ => none
  | (k2, v) :: rest, k => if k2 = k then some v else lookupField rest k

/-- `json.Unmarshal` of a string-typed struct field: a missing key leaves
the zero value, a value of the wrong JSON type is an unmarshal error. -/
def decodeStringField (fields : List (String × Json)) (k : String) : Option String :=
  match lookupField fields k with
  | none => some ""
  | some (Json.str s) => some s
  | some _ => none

/-- `json.Unmarshal` of the `Published` timestamp field: missing key gives
the zero time, wrong JSON type is an unmarshal error. -/
def decodeTimeField (fields : List (String × Json)) (k : String) : Option Int :=
  match lookupField fields k with
  | none => some 0
  | some (Json.num n) => some n
  | some _ => none

/-- `json.Unmarshal` of one `feed.Article`. -/
def decodeArticle : Json → Option Article
  | Json.obj fields => do
      let t ← decodeStringField fields "Title"
      let d ← decodeStringField fields "Description"
      let c ← decodeStringField fields "Content"
      let l ← decodeStringField fields "Link"
      let p ← decodeTimeField fields "Published"
      let f ← decodeStringField fields "FeedName"
      pure ⟨t, d, c, l, p, f⟩
  | _ => none

/-- `json.Unmarshal` of a `[]feed.Article`: `null` unmarshals to the nil
slice, any non-array non-null value is an error. -/
def decodeArticles : Json → Option (List Article)
  | Json.arr elems => elems.mapM decodeArticle
  | Json.null => some []
  | _ => none

/-- Content of the article cache file on disk.  `garbage` stands for any
byte sequence `json.Unmarshal` rejects outright (truncated output, partial
writes, non-JSON text). -/
inductive FileData where
  | json (j : Json)
  | garbage

/-- The slice of the file system the cache code touches: whether the cache
directory `~/.cache/gorss` exists, and the content of `feed_cache.json`
(`none` = file absent, so `os.ReadFile` fails with `os.IsNotExist`). -/
structure FS where
  dirExists : Bool
  cacheFile : Option FileData

/-- `feed.FeedManager`, restricted to the fields the verified claims are
about (the summary cache and the parser handle play no role in them). -/
structure FeedManager where
  Feeds : List Feed
  Articles : List Article

/-- `FeedManager.loadCache` (src/feed/feed.go:174-190): a missing file
returns `nil` without touching the store; unparseable content returns the
unmarshal error; otherwise the decoded articles replace the store. -/
def loadCache (fs : FS) (fm : FeedManager) : FeedManager × Option String :=
  match fs.cacheFile with
  | none => (fm, none)
  | some FileData.garbage => (fm, some "invalid character looking for beginning of value")
  | some (FileData.json j) =>
      match decodeArticles j with
      | none => (fm, some "json: cannot unmarshal value into Go value of type []feed.Article")
      | some articles => ({ fm with Articles := articles }, none)

/-- `FeedManager.saveCache` (src/feed/feed.go:193-208): `os.MkdirAll` on
the cache directory, then `json.MarshalIndent` of the article slice, then
a plain in-place `os.WriteFile`.  Marshalling a `[]Article` cannot fail,
and I/O faults of a completed call are environment failures the caller
only logs, so the non-crashing call is modelled as succeeding. -/
def saveCache (fm : FeedManager) (_fs : FS) : FS × Option String :=
  ({ dirExists := true, cacheFile := some (FileData.json (encodeArticles fm.Articles)) }, none)

/-- The on-disk states a crash can expose during `saveCache`
(src/feed/feed.go:193-208).  `os.WriteFile` opens the existing file with
`O_TRUNC` and then writes the new bytes in place, so between the start and
the end of the call the file holds a truncated or partial image, which
`json.Unmarshal` rejects (`FileData.garbage`). -/
def saveCacheCrashStates (fm : FeedManager) (fs : FS) : List FS :=
  [fs,
   { dirExists := true, cacheFile := fs.cacheFile },
   { dirExists := true, cacheFile := some FileData.garbage },
   { dirExists := true, cacheFile := some (FileData.json (encodeArticles fm.Articles)) }]

/-- `feed.NewFeedManager` (src/feed/feed.go:45-72), restricted to the
article cache: builds the manager with an empty store, runs `loadCache`,
and on a load error only prints a warning (the second component) — the
constructor itself always returns a manager. -/
def NewFeedManager (feeds : List Feed) (fs : FS) : FeedManager × Bool :=
  let fm : FeedManager := { Feeds := feeds, Articles := [] }
  let loaded := loadCache fs fm
  (loaded.1, loaded.2.isSome)

/-- `gofeed.Item`, restricted to the fields `fetchFeed` reads. -/
structure Item where
  Title : String
  Description : String
  Content : String
  Link : String
  PublishedParsed : Option Int
deriving DecidableEq, Repr

/-- The loop body of `FeedManager.fetchFeed` (src/feed/feed.go:142-171):
`pubDate` falls back to `time.Now()` (the `now` argument) and `content`
falls back to the description when the item's content is empty. -/
def itemToArticle (now : Int) (feedName : String) (it : Item) : Article :=
  { Title := it.Title
    Description := it.Description
    Content := if it.Content = "" then it.Description else it.Content
    Link := it.Link
    Published := match it.PublishedParsed with
      | some p => p
      | none => now
    FeedName := feedName }

/-- `FeedManager.fetchFeed`'s conversion of all parsed items of one feed. -/
def fetchFeedArticles (now : Int) (fd : Feed) (items : List Item) : List Article :=
  items.map (itemToArticle now fd.Name)

/-- The error message `RefreshFeeds` wraps a fetch failure in
(src/feed/feed.go:91). -/
def fetchErrMsg (name e : String) : String :=
  "failed to fetch " ++ name ++ ": " ++ e

/-- The feeds `RefreshFeeds` launches a fetch goroutine for
(src/feed/feed.go:80-96): every configured feed whose locator is
non-empty; the empty-locator "All" pseudo-feed is skipped by `continue`. -/
def launchedFeeds (feeds : List Feed) : List Feed :=
  feeds.filter (fun f => f.URL != "")

/-- The outcome of one `RefreshFeeds` call: the manager, the file system,
and the returned error. -/
structure RefreshResult where
  fm : FeedManager
  fs : FS
  err : Option String

/-- The messages received from the `articleCh` / `errorCh` channels, in
arrival order.  `order` lists indices into the launched-feed list in the
(nondeterministic, scheduler-chosen) order the fetch goroutines finished;
each finished goroutine contributed either its article slice or its
wrapped error. -/
def collectResults (fetch : Feed → Except String (List Article)) (order : List Nat)
    (launched : List Feed) : List (Feed × Except String (List Article)) :=
  order.filterMap (fun i => (launched[i]?).map (fun f => (f, fetch f)))

/-- What one finished goroutine put on `articleCh`: its article slice on
success, nothing on failure. -/
def okOf (r : Feed × Except String (List Article)) : Option (List Article) :=
  match r.2 with
  | Except.ok articles => some articles
  | Except.error _ => none

/-- What one finished goroutine put on `errorCh`: its wrapped error on
failure, nothing on success. -/
def errOf (r : Feed × Except String (List Article)) : Option String :=
  match r.2 with
  | Except.ok _ => none
  | Except.error e => some (fetchErrMsg r.1.Name e)

/-- `newArticles` in `RefreshFeeds` (src/feed/feed.go:104-107): the
concatenation, in arrival order, of the successful goroutines' slices. -/
def collectedArticles (results : List (Feed × Except String (List Article))) : List Article :=
  (results.filterMap okOf).flatten

/-- `errors` in `RefreshFeeds` (src/feed/feed.go:109-112): the wrapped
fetch errors in arrival order. -/
def collectedErrors (results : List (Feed × Except String (List Article))) : List String :=
  results.filterMap errOf

/-- `FeedManager.RefreshFeeds` (src/feed/feed.go:75-127).  `fetch` is the
environment giving each feed's fetch outcome and `order` the completion
order of the goroutines (an arbitrary permutation of the launched-task
indices).  If any error arrived, the first one is returned *before* the
store assignment and before `saveCache`; otherwise the collected articles
replace the store and the cache is written (a cache-write failure is only
logged). -/
def refreshFeeds (fetch : Feed → Except String (List Article)) (order : List Nat)
    (fm : FeedManager) (fs : FS) : RefreshResult :=
  let results := collectResults fetch order (launchedFeeds fm.Feeds)
  match collectedErrors results with
  | e :: _ => ⟨fm, fs, some e⟩
  | [] =>
      let fm2 := { fm with Articles := collectedArticles results }
      ⟨fm2, (saveCache fm2 fs).1, none⟩

/-- `llm.OllamaConfig` (src/llm/ollama.go). -/
structure OllamaConfig where
  Enabled : Bool
  URL : String
  Model : String
  MaxArticles : Int
  Timeout : Int
deriving DecidableEq, Repr

/-- `llm.DefaultOllamaConfig` (src/llm/ollama.go). -/
def DefaultOllamaConfig : OllamaConfig :=
  { Enabled := true, URL := "http://localhost:11434", Model := "qwen3:32b",
    MaxArticles := 100, Timeout := 3000 }

/-- `llm.OllamaRequest`, the fields `AskOllamaStreaming` fills in. -/
structure OllamaRequest where
  Model : String
  Prompt : String
  Stream : Bool
deriving DecidableEq, Repr

/-- `llm.OllamaResponse`, the fields the streaming loop reads. -/
structure OllamaResponse where
  Model : String
  Response : String
  Done : Bool
  Error : String
deriving DecidableEq, Repr

/-- `llm.StreamingResponseMsg`: one unit sent on the delivery channel.
The Go `error` is modelled as `Option String` (`none` = nil). -/
structure StreamingResponseMsg where
  Content : String
  Done : Bool
  Err : Option String
deriving DecidableEq, Repr

/-- `strings.TrimSuffix`: removes at most one trailing occurrence. -/
def trimSuffix (s sfx : String) : String :=
  if s.endsWith sfx then s.dropRight sfx.length else s

/-- Outcome of `client.Post`: a transport error, or a status code together
with the response body split into the lines `bufio.Scanner` yields. -/
inductive PostResult where
  | failure (e : String)
  | response (status : Nat) (bodyLines : List String)

/-- The network environment `AskOllamaStreaming` runs against: the HTTP
POST outcome, the behaviour of `json.Unmarshal` on each body line, and the
scanner error (`none` = clean end of stream). -/
structure NetEnv where
  post : String → OllamaRequest → PostResult
  parseLine : String → Option OllamaResponse
  scanErr : Option String

/-- The scanning loop of `llm.AskOllamaStreaming` (src/llm/ollama.go):
empty lines are skipped, an unparseable line or an in-band API error sends
one terminal error message, otherwise the text accumulates in `buffer` and
is flushed when it reaches `bufferThreshold = 1` characters or the `Done`
marker arrives; after a `Done` line the loop breaks (so the scanner error
is only consulted when the lines run out). -/
def streamLoop (parseLine : String → Option OllamaResponse) (scanErr : Option String) :
    List String → String → List StreamingResponseMsg
  | [], _ =>
      match scanErr with
      | some e => [⟨"", true, some ("error reading stream: " ++ e)⟩]
      | none => []
  | line :: rest, buffer =>
      if line = "" then streamLoop parseLine scanErr rest buffer
      else
        match parseLine line with
        | none => [⟨"", true, some "error parsing streaming response"⟩]
        | some resp =>
            if resp.Error ≠ "" then
              [⟨"", true, some ("Ollama API error: " ++ resp.Error)⟩]
            else
              let buf2 := buffer ++ resp.Response
              if buf2.length ≥ 1 ∨ resp.Done = true then
                ⟨buf2, resp.Done, none⟩ ::
                  (if resp.Done then [] else streamLoop parseLine scanErr rest "")
              else
                if resp.Done then [] else streamLoop parseLine scanErr rest buf2

/-- `llm.AskOllamaStreaming` (src/llm/ollama.go:112-205): the complete
sequence of messages the producer goroutine sends on `responseChannel`
before closing it.  A disabled config sends exactly one terminal error
message without consulting the network environment.  (`json.Marshal` of an
`OllamaRequest` cannot fail, so that error branch of the source is dead.) -/
def askOllamaStreaming (prompt : String) (cfg : OllamaConfig) (net : NetEnv) :
    List StreamingResponseMsg :=
  if cfg.Enabled = false then
    [⟨"", true, some "LLM is disabled in config"⟩]
  else
    let apiURL := trimSuffix cfg.URL "/" ++ "/api/generate"
    match net.post apiURL ⟨cfg.Model, prompt, true⟩ with
    | PostResult.failure e =>
        [⟨"", true, some ("error calling Ollama API at " ++ apiURL ++ ": " ++ e)⟩]
    | PostResult.response status body =>
        if status ≠ 200 then
          [⟨"", true, some "Ollama API returned non-200 status code"⟩]
        else
          streamLoop net.parseLine net.scanErr body ""

/-- One Go channel of `StreamingResponseMsg`: what the producer goroutine
still has to send, what sits in the channel buffer, and whether the
channel has been closed.  (The source buffer capacity is 10; it is never
reached in the traces considered here.) -/
structure Chan where
  pendingSend : List StreamingResponseMsg
  buf : List StreamingResponseMsg
  closed : Bool
deriving DecidableEq, Repr

/-- `ui.Model`, restricted to the fields the streaming claims touch.
`live` is `m.liveResponseCh`: the index of the current delivery channel,
`none` for a nil channel. -/
structure UIModel where
  askLLMResult : String
  errorMessage : String
  statusMessage : String
  live : Option Nat
deriving DecidableEq, Repr

/-- A pending bubbletea command: the closure returned by `Update` that
performs `chunk, ok := <-ch` on the channel it captured when it was
created. -/
inductive UICmd where
  | readChan (cid : Option Nat)
deriving DecidableEq, Repr

/-- The body of the read closures in `ui.Model.Update`
(src/ui/app.go:185-203 and 515-535): a receive from a closed channel or a
chunk error becomes a terminal `streamingLLMResponseMsg`. -/
def msgOfRead : Option StreamingResponseMsg → StreamingResponseMsg
  | none => ⟨"", true, none⟩
  | some c => if c.Err.isSome then ⟨"", true, c.Err⟩ else ⟨c.Content, c.Done, none⟩

/-- The `case streamingLLMResponseMsg` branch of `ui.Model.Update`
(src/ui/app.go:493-543): an error message only sets the status fields;
otherwise the content is appended to `m.askLLMResult` (no check which
session it came from), and while not done a follow-up command reading
`m.liveResponseCh` (the *current* one) is returned. -/
def updateStream (m : UIModel) (msg : StreamingResponseMsg) : UIModel × List UICmd :=
  if msg.Err.isSome then
    ({ m with errorMessage := "LLM error: " ++ msg.Err.getD "",
              statusMessage := "Ask LLM failed" }, [])
  else
    let m1 :=
      if msg.Content ≠ "" then
        { m with askLLMResult := m.askLLMResult ++ msg.Content }
      else m
    if msg.Done = false then
      (m1, [UICmd.readChan m1.live])
    else
      ({ m1 with statusMessage := "LLM answered" }, [])

/-- The state of the whole UI runtime: the model, every channel allocated
so far (`m.live` and the commands refer to them by index), the pending
read commands, and the channels currently drained by `for range ch`
goroutines. -/
structure UISys where
  m : UIModel
  chans : List Chan
  pending : List UICmd
  drainers : List Nat
deriving Repr

/-- The submit branch of `ui.Model.Update` for a non-empty prompt
(src/ui/app.go:170-203): reset `askLLMResult`, start a `for range ch`
drain goroutine on the previous channel if there is one, point
`m.liveResponseCh` at a fresh channel produced by `AskOllamaStreaming`,
and return the command that reads the first chunk from it. -/
def submitPrompt (s : UISys) (prompt : String) (cfg : OllamaConfig) (net : NetEnv) : UISys :=
  let drainers2 :=
    match s.m.live with
    | some old => s.drainers ++ [old]
    | none => s.drainers
  let newCid := s.chans.length
  { m := { s.m with askLLMResult := "", statusMessage := "Asking LLM...", live := some newCid }
    chans := s.chans ++ [⟨askOllamaStreaming prompt cfg net, [], false⟩]
    pending := s.pending ++ [UICmd.readChan (some newCid)]
    drainers := drainers2 }

/-- Scheduler step: the producer goroutine of channel `cid` makes
progress — it sends its next message into the buffer, or closes the
channel (`defer close(responseChannel)`) once everything is sent. -/
def stepSend (s : UISys) (cid : Nat) : UISys :=
  match s.chans[cid]? with
  | some ch =>
      match ch.pendingSend with
      | msg :: rest => { s with chans := s.chans.set cid ⟨rest, ch.buf ++ [msg], ch.closed⟩ }
      | [] => { s with chans := s.chans.set cid ⟨[], ch.buf, true⟩ }
  | none => s

/-- A read command receives from its captured channel and its message is
processed by `Update`.  A read on a nil channel returns the "response
channel was closed" error (src/ui/app.go:188, 519); a read on an empty
open channel blocks (no state change). -/
def runReadChan (s : UISys) (cid : Option Nat) (rest : List UICmd) : UISys :=
  match cid with
  | none =>
      let upd := updateStream s.m ⟨"", true, some "response channel was closed"⟩
      { s with m := upd.1, pending := rest ++ upd.2 }
  | some c =>
      match s.chans[c]? with
      | none => s
      | some ch =>
          match ch.buf with
          | v :: vb =>
              let upd := updateStream s.m (msgOfRead (some v))
              { s with m := upd.1,
                       chans := s.chans.set c ⟨ch.pendingSend, vb, ch.closed⟩,
                       pending := rest ++ upd.2 }
          | [] =>
              if ch.closed then
                let upd := updateStream s.m (msgOfRead none)
                { s with m := upd.1, pending := rest ++ upd.2 }
              else s

/-- Scheduler step: pending read command number `i` fires. -/
def stepDeliver (s : UISys) (i : Nat) : UISys :=
  match s.pending[i]? with
  | some (UICmd.readChan cid) => runReadChan s cid (s.pending.eraseIdx i)
  | none => s

/-- Scheduler step: drain goroutine number `j` (`for range ch { }`,
src/ui/app.go:175-181) makes progress: it discards one buffered message,
or terminates once its channel is empty and closed. -/
def stepDrain (s : UISys) (j : Nat) : UISys :=
  match s.drainers[j]? with
  | some cid =>
      match s.chans[cid]? with
      | none => s
      | some ch =>
          match ch.buf with
          | _ :: vb => { s with chans := s.chans.set cid ⟨ch.pendingSend, vb, ch.closed⟩ }
          | [] => if ch.closed then { s with drainers := s.drainers.eraseIdx j } else s
  | none => s

/-- The article slice a fetch outcome contributes to `newArticles`: the
slice on success, nothing on failure. -/
def okArticles : Except String (List Article) → List Article
  | Except.ok articles => articles
  | Except.error _ => []

/-! Concrete fixtures used in witnesses and counterexamples. -/

/-- A concrete feed named "A". -/
def feedA : Feed := ⟨"A", "http://a.example/rss"⟩

/-- A concrete feed named "B". -/
def feedB : Feed := ⟨"B", "http://b.example/rss"⟩

/-- The aggregate pseudo-feed: empty locator (see src/main.go). -/
def feedAll : Feed := ⟨"All", ""⟩

/-- A concrete article belonging to feed "A". -/
def artA : Article := ⟨"a-title", "a-desc", "a-content", "http://a.example/1", 1, "A"⟩

/-- A concrete article belonging to feed "B". -/
def artB : Article := ⟨"b-title", "b-desc", "b-content", "http://b.example/1", 2, "B"⟩

/-- Fresh file system: no cache directory, no cache file. -/
def fs0 : FS := ⟨false, none⟩

/-- Fetch environment: both feeds succeed. -/
def fetchAB : Feed → Except String (List Article) := fun f =>
  if f.Name = "A" then Except.ok [artA] else Except.ok [artB]

/-- Fetch environment: "A" succeeds, every other feed fails. -/
def fetchBFails : Feed → Except String (List Article) := fun f =>
  if f.Name = "A" then Except.ok [artA] else Except.error "connection refused"

/-- A disabled generation-client configuration. -/
def cfgOff : OllamaConfig := { DefaultOllamaConfig with Enabled := false }

/-- `json.Unmarshal` behaviour for the sample stream of prompt "P1":
three lines, two content chunks and a final done marker. -/
def parseP1 : String → Option OllamaResponse := fun line =>
  if line = "l1" then some ⟨"qwen3:32b", "P1-a", false, ""⟩
  else if line = "l2" then some ⟨"qwen3:32b", "P1-b", false, ""⟩
  else if line = "l3" then some ⟨"qwen3:32b", "", true, ""⟩
  else none

/-- Network environment delivering the sample "P1" stream. -/
def netP1 : NetEnv :=
  { post := fun _ _ => PostResult.response 200 ["l1", "l2", "l3"],
    parseLine := parseP1, scanErr := none }

/-- `json.Unmarshal` behaviour for the sample stream of prompt "P2". -/
def parseP2 : String → Option OllamaResponse := fun line =>
  if line = "k1" then some ⟨"qwen3:32b", "P2-a", false, ""⟩
  else if line = "k2" then some ⟨"qwen3:32b", "", true, ""⟩
  else none

/-- Network environment delivering the sample "P2" stream. -/
def netP2 : NetEnv :=
  { post := fun _ _ => PostResult.response 200 ["k1", "k2"],
    parseLine := parseP2, scanErr := none }

/-- The idle UI runtime: nil `liveResponseCh`, no channels, no pending
commands, no drain goroutines. -/
def uiInit : UISys := ⟨⟨"", "", "", none⟩, [], [], []⟩

/-- A manager configured with the two real feeds and an empty store. -/
def fmAB : FeedManager := ⟨[feedA, feedB], []⟩

/-- A manager holding two articles, used for the round-trip witness. -/
def fmSample : FeedManager := ⟨[feedA], [artA, artB]⟩

/-- A file system holding a valid cache image of `[artA]`. -/
def fsOldA : FS := ⟨true, some (FileData.json (encodeArticles [artA]))⟩

/-- A feed item with empty content and a non-empty description. -/
def itemW : Item := ⟨"w-title", "w-desc", "", "http://a.example/w", none⟩

/-- The interleaving exhibiting the supersede race: prompt "P1" is
submitted and streams its first chunk (leaving a pending read command on
channel 0), its second chunk reaches the channel buffer, then "P2" is
submitted (spawning the drain goroutine for channel 0 and pointing
`liveResponseCh` at channel 1) — and then the *stale* pending read on
channel 0 fires before the drain goroutine gets the chunk. -/
def staleTrace : UISys :=
  stepDeliver (submitPrompt (stepSend (stepDeliver (stepSend
    (submitPrompt uiInit "P1" DefaultOllamaConfig netP1) 0) 0) 0) "P2" DefaultOllamaConfig netP2) 0

/-! Helper lemmas. -/

/-- Decoding inverts encoding on one article. -/
theorem decodeArticle_encodeArticle (a : Article) : decodeArticle (encodeArticle a) = some a := rfl

/-- Decoding inverts encoding on an article slice. -/
theorem decodeArticles_encodeArticles (l : List Article) :
    decodeArticles (encodeArticles l) = some l := by
  induction l with
  | nil => rfl
  | cons a rest ih =>
      simp only [encodeArticles, decodeArticles, List.map_cons, List.mapM_cons] at ih ⊢
      rw [decodeArticle_encodeArticle]
      simp only [Option.bind_eq_bind, Option.bind_some] at ih ⊢
      rw [ih]
      rfl

/-- Indexing every position of a list in order rebuilds the list. -/
theorem filterMap_getElem_range {α : Type} (l : List α) :
    (List.range l.length).filterMap (fun i => l[i]?) = l := by
  induction l with
  | nil => rfl
  | cons x xs ih =>
      simp only [List.length_cons, List.range_succ_eq_map, List.filterMap_cons,
        List.getElem?_cons_zero, List.filterMap_map, Function.comp_def,
        List.getElem?_cons_succ]
      rw [ih]

/-- Indexing a list along a permutation of its positions permutes it. -/
theorem filterMap_getElem_perm {α : Type} (l : List α) (order : List Nat)
    (h : order.Perm (List.range l.length)) :
    (order.filterMap (fun i => l[i]?)).Perm l := by
  have h2 := h.filterMap (fun i => l[i]?)
  rw [filterMap_getElem_range l] at h2
  exact h2

/-- The channel messages collected in completion order are a permutation
of the per-feed fetch outcomes in configuration order. -/
theorem collectResults_perm (fetch : Feed → Except String (List Article)) (order : List Nat)
    (launched : List Feed) (h : order.Perm (List.range launched.length)) :
    (collectResults fetch order launched).Perm
      (launched.map (fun f => (f, fetch f))) := by
  have hfun : (fun i : Nat => (launched[i]?).map (fun f => (f, fetch f)))
      = fun i : Nat => (launched.map (fun f => (f, fetch f)))[i]? := by
    funext i
    exact (List.getElem?_map _ _ i).symm
  have h2 := h.filterMap (fun i => (launched[i]?).map (fun f => (f, fetch f)))
  rw [hfun] at h2
  have h3 := filterMap_getElem_range (launched.map (fun f => (f, fetch f)))
  rw [List.length_map] at h3
  rw [h3] at h2
  unfold collectResults
  rw [hfun]
  exact h2

/-- `newArticles` is the flattening of the per-result success slices. -/
theorem collectedArticles_eq (results : List (Feed × Except String (List Article))) :
    collectedArticles results = (results.map (fun r => okArticles r.2)).flatten := by
  induction results with
  | nil => rfl
  | cons r rest ih =>
      rcases r with ⟨f, res⟩
      cases res with
      | ok articles =>
          simp only [collectedArticles, okOf, List.filterMap_cons, List.map_cons,
            List.flatten_cons, okArticles] at ih ⊢
          rw [ih]
      | error e =>
          simp only [collectedArticles, okOf, List.filterMap_cons, List.map_cons,
            List.flatten_cons, okArticles] at ih ⊢
          rw [ih]
          rfl

/-- When every launched feed fetches successfully, the error channel in
configuration order is empty. -/
theorem collectedErrors_nil (fetch : Feed → Except String (List Article))
    (launched : List Feed)
    (hok : ∀ f ∈ launched, ∃ articles, fetch f = Except.ok articles) :
    collectedErrors (launched.map (fun f => (f, fetch f))) = [] := by
  unfold collectedErrors
  rw [List.filterMap_map]
  rw [List.filterMap_eq_nil_iff]
  intro f hf
  rcases hok f hf with ⟨articles, hfa⟩
  simp [Function.comp_def, errOf, hfa]

/-! Claim theorems. -/

/-- C1 (code-bug evidence): with feed "A" succeeding and feed "B"
failing, `RefreshFeeds` returns the wrapped first error but leaves the
store empty — the successful source's records are *not* installed,
contrary to the spec and to the source comment "Return the first error
but continue with any successfully fetched feeds". -/
theorem refresh_discards_good_data_on_failure :
    fetchBFails feedA = Except.ok [artA] ∧
    refreshFeeds fetchBFails [0, 1] fmAB fs0
      = ⟨fmAB, fs0, some (fetchErrMsg "B" "connection refused")⟩ ∧
    (refreshFeeds fetchBFails [0, 1] fmAB fs0).fm.Articles = [] :=
  ⟨rfl, rfl, rfl⟩

/-- C2 counterexample: both sources succeed, but with completion order
`[1, 0]` the installed list is `[artB, artA]`, not the configuration-order
concatenation `[artA, artB]` the claim demands. -/
theorem refresh_not_config_order :
    ([1, 0] : List Nat).Perm (List.range (launchedFeeds fmAB.Feeds).length) ∧
    (refreshFeeds fetchAB [1, 0] fmAB fs0).err = none ∧
    (refreshFeeds fetchAB [1, 0] fmAB fs0).fm.Articles = [artB, artA] ∧
    okArticles (fetchAB feedA) ++ okArticles (fetchAB feedB) = [artA, artB] ∧
    ([artB, artA] : List Article) ≠ [artA, artB] :=
  ⟨by decide, rfl, rfl, rfl, by decide⟩

/-- C2 (amended): when no launched source fails, `RefreshFeeds` returns
no error and installs the concatenation of the per-source record lists in
task-completion order — a permutation of the configured sources, each
source's records contiguous and in the Source Client's order — which is a
permutation of the configuration-order concatenation. -/
theorem refresh_all_ok_installs_completion_order
    (fetch : Feed → Except String (List Article)) (order : List Nat)
    (fm : FeedManager) (fs : FS)
    (hord : order.Perm (List.range (launchedFeeds fm.Feeds).length))
    (hok : ∀ f ∈ launchedFeeds fm.Feeds, ∃ articles, fetch f = Except.ok articles) :
    (refreshFeeds fetch order fm fs).err = none ∧
    (refreshFeeds fetch order fm fs).fm.Articles
      = ((order.filterMap (fun i => (launchedFeeds fm.Feeds)[i]?)).map
          (fun f => okArticles (fetch f))).flatten ∧
    (order.filterMap (fun i => (launchedFeeds fm.Feeds)[i]?)).Perm (launchedFeeds fm.Feeds) ∧
    ((refreshFeeds fetch order fm fs).fm.Articles).Perm
      (((launchedFeeds fm.Feeds).map (fun f => okArticles (fetch f))).flatten) := by
  have hres := collectResults_perm fetch order (launchedFeeds fm.Feeds) hord
  have herr0 := collectedErrors_nil fetch (launchedFeeds fm.Feeds) hok
  have hp : (collectedErrors (collectResults fetch order (launchedFeeds fm.Feeds))).Perm
      (collectedErrors ((launchedFeeds fm.Feeds).map (fun f => (f, fetch f)))) :=
    hres.filterMap errOf
  rw [herr0] at hp
  have herr := List.Perm.eq_nil hp
  have hout : refreshFeeds fetch order fm fs
      = ⟨{ fm with Articles :=
             collectedArticles (collectResults fetch order (launchedFeeds fm.Feeds)) },
         (saveCache { fm with Articles :=
             collectedArticles (collectResults fetch order (launchedFeeds fm.Feeds)) } fs).1,
         none⟩ := by
    simp only [refreshFeeds]
    rw [herr]
  refine ⟨by rw [hout], ?_, filterMap_getElem_perm (launchedFeeds fm.Feeds) order hord, ?_⟩
  · rw [hout]
    show collectedArticles (collectResults fetch order (launchedFeeds fm.Feeds)) = _
    rw [collectedArticles_eq]
    congr 1
    unfold collectResults
    rw [List.map_filterMap, List.map_filterMap]
    apply List.filterMap_congr
    intro i _
    cases (launchedFeeds fm.Feeds)[i]? <;> rfl
  · rw [hout]
    show (collectedArticles (collectResults fetch order (launchedFeeds fm.Feeds))).Perm _
    rw [collectedArticles_eq]
    have hflat := (hres.map (fun r => okArticles r.2)).flatten
    have hrhs : (((launchedFeeds fm.Feeds).map (fun f => (f, fetch f))).map
        (fun r => okArticles r.2)).flatten
        = (((launchedFeeds fm.Feeds)).map (fun f => okArticles (fetch f))).flatten := by
      rw [List.map_map]
      rfl
    rw [hrhs] at hflat
    exact hflat

/-- Both configured feeds are launched and both fetch successfully under
`fetchAB`. -/
theorem fetchAB_all_ok :
    ∀ f ∈ launchedFeeds fmAB.Feeds, ∃ articles, fetchAB f = Except.ok articles := by
  have hlf : launchedFeeds fmAB.Feeds = [feedA, feedB] := rfl
  rw [hlf]
  intro f hf
  simp only [List.mem_cons, List.not_mem_nil, or_false] at hf
  rcases hf with rfl | rfl
  · exact ⟨[artA], rfl⟩
  · exact ⟨[artB], rfl⟩

/-- C2 witness: the two-feed configuration with reversed completion
order. -/
theorem refresh_all_ok_installs_completion_order_witness :
    (([1, 0] : List Nat).Perm (List.range (launchedFeeds fmAB.Feeds).length) ∧
     ∀ f ∈ launchedFeeds fmAB.Feeds, ∃ articles, fetchAB f = Except.ok articles) ∧
    ((refreshFeeds fetchAB [1, 0] fmAB fs0).err = none ∧
     (refreshFeeds fetchAB [1, 0] fmAB fs0).fm.Articles
       = ((([1, 0] : List Nat).filterMap (fun i => (launchedFeeds fmAB.Feeds)[i]?)).map
           (fun f => okArticles (fetchAB f))).flatten ∧
     (([1, 0] : List Nat).filterMap (fun i => (launchedFeeds fmAB.Feeds)[i]?)).Perm
       (launchedFeeds fmAB.Feeds) ∧
     ((refreshFeeds fetchAB [1, 0] fmAB fs0).fm.Articles).Perm
       (((launchedFeeds fmAB.Feeds).map (fun f => okArticles (fetchAB f))).flatten)) :=
  ⟨⟨by decide, fetchAB_all_ok⟩,
    refresh_all_ok_installs_completion_order fetchAB [1, 0] fmAB fs0 (by decide) fetchAB_all_ok⟩

/-- C3: a feed whose locator is empty is never launched as a fetch task,
and inserting it anywhere in the configuration changes neither the
installed records, nor the returned error, nor the on-disk cache. -/
theorem empty_locator_skipped (f : Feed) (xs ys : List Feed) (articles : List Article)
    (fetch : Feed → Except String (List Article)) (order : List Nat) (fs : FS)
    (h : f.URL = "") :
    f ∉ launchedFeeds (xs ++ f :: ys) ∧
    launchedFeeds (xs ++ f :: ys) = launchedFeeds (xs ++ ys) ∧
    (refreshFeeds fetch order ⟨xs ++ f :: ys, articles⟩ fs).fm.Articles
      = (refreshFeeds fetch order ⟨xs ++ ys, articles⟩ fs).fm.Articles ∧
    (refreshFeeds fetch order ⟨xs ++ f :: ys, articles⟩ fs).err
      = (refreshFeeds fetch order ⟨xs ++ ys, articles⟩ fs).err ∧
    (refreshFeeds fetch order ⟨xs ++ f :: ys, articles⟩ fs).fs
      = (refreshFeeds fetch order ⟨xs ++ ys, articles⟩ fs).fs := by
  have hl : launchedFeeds (xs ++ f :: ys) = launchedFeeds (xs ++ ys) := by
    simp [launchedFeeds, List.filter_append, List.filter_cons, h]
  refine ⟨?_, hl, ?_, ?_, ?_⟩
  · simp [launchedFeeds, List.mem_filter, h]
  · simp only [refreshFeeds, hl]
    cases collectedErrors (collectResults fetch order (launchedFeeds (xs ++ ys))) <;> rfl
  · simp only [refreshFeeds, hl]
    cases collectedErrors (collectResults fetch order (launchedFeeds (xs ++ ys))) <;> rfl
  · simp only [refreshFeeds, hl]
    cases collectedErrors (collectResults fetch order (launchedFeeds (xs ++ ys))) <;> rfl

/-- C3 witness: the "All" pseudo-feed inserted between "A" and "B". -/
theorem empty_locator_skipped_witness :
    feedAll.URL = "" ∧
    (feedAll ∉ launchedFeeds ([feedA] ++ feedAll :: [feedB]) ∧
     launchedFeeds ([feedA] ++ feedAll :: [feedB]) = launchedFeeds ([feedA] ++ [feedB]) ∧
     (refreshFeeds fetchAB [0, 1] ⟨[feedA] ++ feedAll :: [feedB], []⟩ fs0).fm.Articles
       = (refreshFeeds fetchAB [0, 1] ⟨[feedA] ++ [feedB], []⟩ fs0).fm.Articles ∧
     (refreshFeeds fetchAB [0, 1] ⟨[feedA] ++ feedAll :: [feedB], []⟩ fs0).err
       = (refreshFeeds fetchAB [0, 1] ⟨[feedA] ++ [feedB], []⟩ fs0).err ∧
     (refreshFeeds fetchAB [0, 1] ⟨[feedA] ++ feedAll :: [feedB], []⟩ fs0).fs
       = (refreshFeeds fetchAB [0, 1] ⟨[feedA] ++ [feedB], []⟩ fs0).fs) :=
  ⟨rfl, empty_locator_skipped feedAll [feedA] [feedB] [] fetchAB [0, 1] fs0 rfl⟩

/-- C4: every record `fetchFeed` ingests carries the item's content when
that is non-empty and the item's description otherwise, so its content is
non-empty whenever either was. -/
theorem fetched_content_falls_back (now : Int) (fd : Feed) (items : List Item) (a : Article)
    (ha : a ∈ fetchFeedArticles now fd items) :
    ∃ it ∈ items, a = itemToArticle now fd.Name it ∧
      a.Content = (if it.Content = "" then it.Description else it.Content) ∧
      ((it.Content ≠ "" ∨ it.Description ≠ "") → a.Content ≠ "") := by
  simp only [fetchFeedArticles] at ha
  rcases List.mem_map.1 ha with ⟨it, hit, rfl⟩
  refine ⟨it, hit, rfl, rfl, ?_⟩
  intro hne
  by_cases hc : it.Content = ""
  · rcases hne with hne | hne
    · exact absurd hc hne
    · simpa [itemToArticle, hc] using hne
  · simp [itemToArticle, hc]

/-- C4 witness: an item with empty content but a non-empty description. -/
theorem fetched_content_falls_back_witness :
    itemToArticle 7 feedA.Name itemW ∈ fetchFeedArticles 7 feedA [itemW] ∧
    (∃ it ∈ [itemW], itemToArticle 7 feedA.Name itemW = itemToArticle 7 feedA.Name it ∧
      (itemToArticle 7 feedA.Name itemW).Content
        = (if it.Content = "" then it.Description else it.Content) ∧
      ((it.Content ≠ "" ∨ it.Description ≠ "") →
        (itemToArticle 7 feedA.Name itemW).Content ≠ "")) :=
  ⟨by decide, fetched_content_falls_back 7 feedA [itemW] _ (by decide)⟩

/-- C5: saving a record set and loading it back yields the same records,
field for field and in the same order, with no error. -/
theorem save_then_load_round_trips (fm fm0 : FeedManager) (fs : FS)
    (_h : fm.Articles ≠ []) :
    loadCache (saveCache fm fs).1 fm0 = ({ fm0 with Articles := fm.Articles }, none) := by
  simp [saveCache, loadCache, decodeArticles_encodeArticles]

/-- C5 witness: a two-article store round-trips. -/
theorem save_then_load_round_trips_witness :
    fmSample.Articles ≠ [] ∧
    loadCache (saveCache fmSample fs0).1 ⟨[], []⟩
      = ({ Feeds := ([] : List Feed), Articles := fmSample.Articles }, none) :=
  ⟨by decide, save_then_load_round_trips fmSample ⟨[], []⟩ fs0 (by decide)⟩

/-- C6: at construction, a missing cache file yields an empty store with
no warning and a malformed one (unparseable bytes or JSON of the wrong
shape) an empty store with only a warning; construction always returns a
manager. -/
theorem construction_tolerates_cache_faults (feeds : List Feed) (d : Bool) (j : Json)
    (h : decodeArticles j = none) :
    NewFeedManager feeds ⟨d, none⟩ = ({ Feeds := feeds, Articles := [] }, false) ∧
    NewFeedManager feeds ⟨d, some FileData.garbage⟩
      = ({ Feeds := feeds, Articles := [] }, true) ∧
    NewFeedManager feeds ⟨d, some (FileData.json j)⟩
      = ({ Feeds := feeds, Articles := [] }, true) := by
  refine ⟨rfl, rfl, ?_⟩
  simp [NewFeedManager, loadCache, h]

/-- C6 witness: a JSON string is not an article array. -/
theorem construction_tolerates_cache_faults_witness :
    decodeArticles (Json.str "oops") = none ∧
    NewFeedManager [feedA] ⟨false, none⟩ = ({ Feeds := [feedA], Articles := [] }, false) ∧
    NewFeedManager [feedA] ⟨false, some FileData.garbage⟩
      = ({ Feeds := [feedA], Articles := [] }, true) ∧
    NewFeedManager [feedA] ⟨false, some (FileData.json (Json.str "oops"))⟩
      = ({ Feeds := [feedA], Articles := [] }, true) :=
  ⟨rfl, (construction_tolerates_cache_faults [feedA] false (Json.str "oops") rfl).1,
    (construction_tolerates_cache_faults [feedA] false (Json.str "oops") rfl).2.1,
    (construction_tolerates_cache_faults [feedA] false (Json.str "oops") rfl).2.2⟩

/-- C7: a disabled generation client emits exactly one terminal chunk
(`Done = true`, non-nil "disabled" error) and then the channel closes, and
the outcome does not depend on the network environment at all. -/
theorem disabled_fails_fast (prompt : String) (cfg : OllamaConfig) (net net2 : NetEnv)
    (h : cfg.Enabled = false) :
    askOllamaStreaming prompt cfg net = [⟨"", true, some "LLM is disabled in config"⟩] ∧
    askOllamaStreaming prompt cfg net = askOllamaStreaming prompt cfg net2 := by
  constructor <;> simp [askOllamaStreaming, h]

/-- C7 witness: the disabled default config against two different
network environments. -/
theorem disabled_fails_fast_witness :
    cfgOff.Enabled = false ∧
    askOllamaStreaming "why" cfgOff netP1 = [⟨"", true, some "LLM is disabled in config"⟩] ∧
    askOllamaStreaming "why" cfgOff netP1 = askOllamaStreaming "why" cfgOff netP2 :=
  ⟨rfl, (disabled_fails_fast "why" cfgOff netP1 netP2 rfl).1,
    (disabled_fails_fast "why" cfgOff netP1 netP2 rfl).2⟩

/-- C8 (code-bug evidence): in the interleaving `staleTrace`, a read
command created for the "P1" session is still pending when "P2" is
submitted; it races the drain goroutine (still running: `drainers = [0]`)
for channel 0's next chunk and wins, and `Update` appends that chunk —
`"P1-b"`, an element of the "P1" stream and of no "P2" chunk — to the
`askLLMResult` accumulator of the new session (`live = some 1`). -/
theorem stale_chunk_reaches_new_session :
    staleTrace.m.live = some 1 ∧
    staleTrace.drainers = [0] ∧
    staleTrace.m.askLLMResult = "P1-b" ∧
    StreamingResponseMsg.mk "P1-b" false none
      ∈ askOllamaStreaming "P1" DefaultOllamaConfig netP1 ∧
    (∀ c ∈ askOllamaStreaming "P2" DefaultOllamaConfig netP2, c.Content ≠ "P1-b") := by
  decide

/-- C9 (code-bug evidence): `saveCache` does create the cache directory,
but it writes with a plain truncate-in-place `os.WriteFile`; the crash
state after truncation holds unparseable bytes, and loading it yields the
empty store with a warning — neither the previous valid record set
`[artA]` nor the new one `[artB]`. -/
theorem crash_mid_save_tears_cache :
    (saveCache ⟨[], [artB]⟩ fsOldA).1.dirExists = true ∧
    (saveCacheCrashStates ⟨[], [artB]⟩ fsOldA)[2]? = some ⟨true, some FileData.garbage⟩ ∧
    loadCache fsOldA ⟨[], []⟩ = (⟨[], [artA]⟩, none) ∧
    (loadCache ⟨true, some FileData.garbage⟩ ⟨[], []⟩).1.Articles = [] ∧
    (loadCache ⟨true, some FileData.garbage⟩ ⟨[], []⟩).2.isSome = true ∧
    ([] : List Article) ≠ [artA] ∧ ([] : List Article) ≠ [artB] :=
  ⟨rfl, rfl, rfl, rfl, rfl, by decide, by decide⟩

/-- C10: whenever `RefreshFeeds` returns a non-nil error, the manager and
the file system are exactly as before the call: the store is untouched
and `saveCache` was never invoked. -/
theorem refresh_error_is_atomic (fetch : Feed → Except String (List Article))
    (order : List Nat) (fm : FeedManager) (fs : FS) (e : String)
    (h : (refreshFeeds fetch order fm fs).err = some e) :
    refreshFeeds fetch order fm fs = ⟨fm, fs, some e⟩ := by
  simp only [refreshFeeds] at h ⊢
  cases hE : collectedErrors (collectResults fetch order (launchedFeeds fm.Feeds)) with
  | nil =>
      rw [hE] at h
      simp at h
  | cons e1 rest =>
      rw [hE] at h
      obtain rfl : e1 = e := by simpa using h
      rfl

/-- C10 witness: the failing fetch of feed "B" leaves everything as it
was. -/
theorem refresh_error_is_atomic_witness :
    (refreshFeeds fetchBFails [0, 1] fmAB fs0).err
      = some (fetchErrMsg "B" "connection refused") ∧
    refreshFeeds fetchBFails [0, 1] fmAB fs0
      = ⟨fmAB, fs0, some (fetchErrMsg "B" "connection refused")⟩ :=
  ⟨rfl, refresh_error_is_atomic fetchBFails [0, 1] fmAB fs0
    (fetchErrMsg "B" "connection refused") rfl⟩

end Gorss
